import Mathlib

/-!
Verification of the MegaLinter orchestration core (src/megalinter/MegaLinter.py).

Each Python fragment relevant to the examined properties is embedded as an
executable Lean definition, keeping the source structure and names: result
aggregation (`Megalinter.run`, lines 168-183), workspace resolution
(`Megalinter.get_workspace`), parallel grouping and reconciliation
(`Megalinter.process_linters_parallel`), file collection (`Megalinter.collect_files`),
and final exit handling (`Megalinter.check_results`,
`Megalinter.check_updated_sources_failure`).
-/

/-! ## Result aggregation (Megalinter.run, lines 168-183) -/

/-- Result fields of one linter after its run, as read by the aggregation loop
of `Megalinter.run`: `linter.status`, `linter.return_code`, `linter.number_fixed`. -/
structure LinterResult where
  status : String
  return_code : Int
  number_fixed : Nat
deriving DecidableEq

/-- Run-level accumulator fields of the `Megalinter` object mutated by the
aggregation loop: `self.status`, `self.return_code`, `self.has_updated_sources`.
The constructor initializes them to `"success"`, `0`, `0`. -/
structure AggState where
  status : String
  return_code : Int
  has_updated_sources : Nat
deriving DecidableEq

/-- One iteration of the aggregation loop body in `Megalinter.run` (lines 169-183):
a non-success linter with return code 0 raises the status to warning (only from
success), a non-success linter with non-zero return code forces status error;
a strictly positive return code overwrites the run return code; a positive
`number_fixed` sets the updated-sources flag. -/
def aggregateStep (s : AggState) (l : LinterResult) : AggState :=
  let s1 :=
    if l.status ≠ "success" then
      if l.return_code = 0 then
        if s.status = "success" then { s with status := "warning" } else s
      else { s with status := "error" }
    else s
  let s2 := if l.return_code > 0 then { s1 with return_code := l.return_code } else s1
  if l.number_fixed > 0 then { s2 with has_updated_sources := 1 } else s2

/-- The whole aggregation loop of `Megalinter.run` over `self.linters`, starting
from the initial state set in the constructor. -/
def aggregate (linters : List LinterResult) : AggState :=
  linters.foldl aggregateStep { status := "success", return_code := 0, has_updated_sources := 0 }

/-- Maximum non-zero return code among the linters, zero when none: the exit
code described by the spec sentence "exit code is the maximum non-zero blocking
code observed, or zero" (written from the spec, for comparison with the code). -/
def specMaxNonzeroCode (linters : List LinterResult) : Int :=
  linters.foldl (fun a l => if l.return_code ≠ 0 then max a l.return_code else a) 0

/-- Return code of the last linter in iteration order whose return code is
non-zero, zero when none: the "last non-zero wins" reading of the spec
(written from the spec, for comparison with the code). -/
def lastNonzeroCode (linters : List LinterResult) : Int :=
  linters.foldl (fun a l => if l.return_code ≠ 0 then l.return_code else a) 0

/-- Return code of the last linter whose return code is strictly positive, zero
when none: this is what the loop guard `if linter.return_code > 0` computes. -/
def lastPositiveCode (linters : List LinterResult) : Int :=
  linters.foldl (fun a l => if l.return_code > 0 then l.return_code else a) 0

/-- A linter result that forces overall status `"error"`: non-success status
together with a non-zero return code. -/
def isBlockingResult (l : LinterResult) : Bool :=
  !(l.status == "success") && !(l.return_code == 0)

/-- A linter result that raises overall status to `"warning"`: non-success
status with a zero return code. -/
def isNonblockingIssue (l : LinterResult) : Bool :=
  (!(l.status == "success")) && (l.return_code == 0)

/-- Some linter in the list forces overall status `"error"`. -/
def hasBlockingResult (linters : List LinterResult) : Bool :=
  linters.any isBlockingResult

/-- Some linter in the list raises overall status to at least `"warning"`. -/
def hasNonblockingIssue (linters : List LinterResult) : Bool :=
  linters.any isNonblockingIssue

theorem aggregateStep_return_code (s : AggState) (l : LinterResult) :
    (aggregateStep s l).return_code =
      if l.return_code > 0 then l.return_code else s.return_code := by
  simp only [aggregateStep]
  split_ifs <;> rfl

theorem aggregate_foldl_return_code (linters : List LinterResult) (s : AggState) :
    (linters.foldl aggregateStep s).return_code =
      linters.foldl (fun a l => if l.return_code > 0 then l.return_code else a)
        s.return_code := by
  induction linters generalizing s with
  | nil => rfl
  | cons l ls ih =>
    simp only [List.foldl_cons, ih, aggregateStep_return_code]

theorem aggregateStep_status (s : AggState) (l : LinterResult) :
    (aggregateStep s l).status =
      if isBlockingResult l = true then "error"
      else if isNonblockingIssue l = true ∧ s.status = "success" then "warning"
      else s.status := by
  simp only [aggregateStep, isBlockingResult, isNonblockingIssue, Bool.and_eq_true,
    Bool.not_eq_true', beq_eq_false_iff_ne, beq_iff_eq, ne_eq]
  split_ifs <;> simp_all

theorem aggregateStep_status_cases (s : AggState) (l : LinterResult) :
    (aggregateStep s l).status = s.status ∨ (aggregateStep s l).status = "warning" ∨
      (aggregateStep s l).status = "error" := by
  rw [aggregateStep_status]
  split_ifs <;> simp

theorem aggregate_foldl_status (linters : List LinterResult) (s : AggState)
    (hs : s.status = "success" ∨ s.status = "warning" ∨ s.status = "error") :
    (linters.foldl aggregateStep s).status =
      if s.status = "error" ∨ hasBlockingResult linters = true then "error"
      else if s.status = "warning" ∨ hasNonblockingIssue linters = true then "warning"
      else s.status := by
  induction linters generalizing s with
  | nil =>
    simp only [List.foldl_nil, hasBlockingResult, hasNonblockingIssue, List.any_nil]
    rcases hs with h | h | h <;> simp [h]
  | cons l ls ih =>
    have hs' : (aggregateStep s l).status = "success" ∨
        (aggregateStep s l).status = "warning" ∨ (aggregateStep s l).status = "error" := by
      rcases aggregateStep_status_cases s l with h | h | h
      · rw [h]; exact hs
      · right; left; exact h
      · right; right; exact h
    rw [List.foldl_cons, ih _ hs', aggregateStep_status]
    simp only [hasBlockingResult, hasNonblockingIssue, List.any_cons, Bool.or_eq_true]
    by_cases hb : isBlockingResult l = true <;>
      by_cases hn : isNonblockingIssue l = true <;>
        rcases hs with h | h | h <;>
          simp [hb, hn, h]

/-- Status and exit code of the aggregation loop started from the constructor
state, characterized over the linter list. -/
theorem aggregate_status_char (linters : List LinterResult) :
    (aggregate linters).status =
      (if hasBlockingResult linters = true then "error"
       else if hasNonblockingIssue linters = true then "warning"
       else "success") := by
  have h := aggregate_foldl_status linters
    { status := "success", return_code := 0, has_updated_sources := 0 } (by simp)
  rw [aggregate, h]
  simp

/-- Example list refuting the "maximum non-zero code" exit-code reading:
return codes 2 then 1 in iteration order. -/
def exCodesTwoOne : List LinterResult :=
  [{ status := "error", return_code := 2, number_fixed := 0 },
   { status := "error", return_code := 1, number_fixed := 0 }]

/-- C2 counterexample: with blocking return codes 2 then 1, the loop leaves
`self.return_code = 1` (the last positive code), while the maximum non-zero
code is 2, so the claimed equality fails on this list. -/
theorem c2_counterexample :
    (aggregate exCodesTwoOne).return_code ≠ specMaxNonzeroCode exCodesTwoOne ∧
      (aggregate exCodesTwoOne).return_code = 1 ∧
      specMaxNonzeroCode exCodesTwoOne = 2 := by
  decide

/-- Exit code of the aggregation loop started from the constructor state. -/
theorem aggregate_return_code_char (linters : List LinterResult) :
    (aggregate linters).return_code = lastPositiveCode linters :=
  aggregate_foldl_return_code linters _

/-- C2 (amended): after the aggregation loop, `self.return_code` equals the
return code of the last linter in iteration order whose return code is strictly
positive, or zero when no linter has a strictly positive return code. -/
theorem c2_exit_code_is_last_positive (linters : List LinterResult) :
    (aggregate linters).return_code = lastPositiveCode linters :=
  aggregate_return_code_char linters

/-- Example list refuting the "last non-zero code wins" exit-code reading:
a single linter whose return code is negative. -/
def exNegativeCode : List LinterResult :=
  [{ status := "success", return_code := -5, number_fixed := 0 }]

/-- C3 counterexample: for a linter with return code -5 the loop leaves
`self.return_code = 0`, because the guard is `return_code > 0`, while the last
non-zero return code of the list is -5, so the claimed equality fails. -/
theorem c3_counterexample :
    (aggregate exNegativeCode).return_code ≠ lastNonzeroCode exNegativeCode ∧
      (aggregate exNegativeCode).return_code = 0 ∧
      lastNonzeroCode exNegativeCode = -5 := by
  decide

/-- C3 (amended): final status is `"error"` iff some linter has non-success
status and non-zero return code; otherwise `"warning"` iff some linter has
non-success status with return code zero; otherwise `"success"`; and the final
exit code equals the return code of the last linter whose return code is
strictly positive (not merely non-zero), or zero when there is none. -/
theorem c3_status_and_exit_code (linters : List LinterResult) :
    ((aggregate linters).status = "error" ↔
      ∃ l ∈ linters, l.status ≠ "success" ∧ l.return_code ≠ 0) ∧
    ((aggregate linters).status = "warning" ↔
      (¬ ∃ l ∈ linters, l.status ≠ "success" ∧ l.return_code ≠ 0) ∧
        ∃ l ∈ linters, l.status ≠ "success" ∧ l.return_code = 0) ∧
    ((aggregate linters).status = "success" ↔
      (¬ ∃ l ∈ linters, l.status ≠ "success" ∧ l.return_code ≠ 0) ∧
        ¬ ∃ l ∈ linters, l.status ≠ "success" ∧ l.return_code = 0) ∧
    (aggregate linters).return_code = lastPositiveCode linters := by
  have hb : hasBlockingResult linters = true ↔
      ∃ l ∈ linters, l.status ≠ "success" ∧ l.return_code ≠ 0 := by
    simp [hasBlockingResult, isBlockingResult, List.any_eq_true]
  have hn : hasNonblockingIssue linters = true ↔
      ∃ l ∈ linters, l.status ≠ "success" ∧ l.return_code = 0 := by
    simp [hasNonblockingIssue, isNonblockingIssue, List.any_eq_true]
  rw [← hb, ← hn]
  have hchar := aggregate_status_char linters
  by_cases h1 : hasBlockingResult linters = true <;>
    by_cases h2 : hasNonblockingIssue linters = true <;>
      simp [h1, h2] at hchar <;>
        simp [hchar, h1, h2, aggregate_return_code_char]

theorem foldl_positive_guard_const :
    ∀ (linters : List LinterResult), (∀ l ∈ linters, l.return_code ≤ 0) →
      ∀ (a : Int),
        linters.foldl (fun a l => if l.return_code > 0 then l.return_code else a) a = a := by
  intro linters
  induction linters with
  | nil => intro _ a; rfl
  | cons l ls ih =>
    intro h a
    have hl := h l (by simp)
    rw [List.foldl_cons, if_neg (by omega)]
    exact ih (fun x hx => h x (by simp [hx])) a

/-- C10: a linter with non-success status and strictly negative return code
makes the final status `"error"` while leaving the exit code untouched, so a
run whose linters all have negative return codes ends with status `"error"`
and exit code 0. -/
theorem c10_negative_codes_error_exit_zero (linters : List LinterResult)
    (hne : linters ≠ [])
    (h : ∀ l ∈ linters, l.status ≠ "success" ∧ l.return_code < 0) :
    (aggregate linters).status = "error" ∧ (aggregate linters).return_code = 0 := by
  constructor
  · have hbl : hasBlockingResult linters = true := by
      rcases linters with _ | ⟨l, ls⟩
      · exact absurd rfl hne
      · have hl := h l (by simp)
        simp [hasBlockingResult, isBlockingResult, List.any_cons]
        left
        exact ⟨hl.1, by omega⟩
    rw [aggregate_status_char, hbl]
    simp
  · rw [aggregate_return_code_char]
    exact foldl_positive_guard_const linters
      (fun x hx => le_of_lt (h x hx).2) 0

/-- Witness for C10 at the one-element list with status `"cancelled"` and
return code -1: the hypotheses hold and the conclusion evaluates as stated. -/
theorem c10_witness :
    (([{ status := "cancelled", return_code := -1, number_fixed := 0 }] :
        List LinterResult) ≠ [] ∧
      ∀ l ∈ ([{ status := "cancelled", return_code := -1, number_fixed := 0 }] :
        List LinterResult), l.status ≠ "success" ∧ l.return_code < 0) ∧
    (aggregate [{ status := "cancelled", return_code := -1, number_fixed := 0 }]).status
        = "error" ∧
      (aggregate [{ status := "cancelled", return_code := -1, number_fixed := 0 }]).return_code
        = 0 :=
  ⟨⟨by decide, by decide⟩,
    c10_negative_codes_error_exit_zero _ (by decide) (by decide)⟩

/-! ## Exit handling (Megalinter.check_results, lines 805-840) -/

/-- Outcome of the final checks: either the process exits through `sys.exit`
with an explicit code, or the method returns normally (and the process later
ends with the default exit code 0). -/
inductive ExitOutcome where
  | exited (code : Int)
  | returned
deriving DecidableEq

/-- Embedding of `Megalinter.check_updated_sources_failure` (lines 833-840):
`sys.exit(1)` when sources were auto-fixed and `FAIL_IF_UPDATED_SOURCES` is
true, otherwise return. -/
def check_updated_sources_failure (has_updated_sources : Nat)
    (fail_if_updated_sources : Bool) : ExitOutcome :=
  if has_updated_sources > 0 ∧ fail_if_updated_sources = true then .exited 1
  else .returned

/-- Embedding of the exit control flow of `Megalinter.check_results`
(lines 805-831): on status success or warning it defers to
`check_updated_sources_failure`; on any other status it exits with
`self.return_code` when running as CLI (0 when `DISABLE_ERRORS` is true) and
returns normally otherwise, never consulting the mutated-sources policy. -/
def check_results (status : String) (return_code : Int) (cli : Bool)
    (disable_errors : Bool) (has_updated_sources : Nat)
    (fail_if_updated_sources : Bool) : ExitOutcome :=
  if status = "success" then
    check_updated_sources_failure has_updated_sources fail_if_updated_sources
  else if status = "warning" then
    check_updated_sources_failure has_updated_sources fail_if_updated_sources
  else if cli = true then
    if disable_errors = true then .exited 0 else .exited return_code
  else .returned

/-- True when the outcome is a blocking process termination: an explicit exit
with a non-zero code. -/
def blockingOutcome : ExitOutcome → Bool
  | .exited c => !(c == 0)
  | .returned => false

/-- C9 counterexample: a run with mutated sources (flag 1) and the
fail-on-mutated-sources policy enabled, but overall status `"error"` with
`DISABLE_ERRORS` true under CLI, exits with code 0 — not a blocking failure —
because the error branch of `check_results` never calls
`check_updated_sources_failure`. -/
theorem c9_counterexample :
    check_results "error" 2 true true 1 true = ExitOutcome.exited 0 ∧
      blockingOutcome (check_results "error" 2 true true 1 true) = false := by
  decide

/-- C9 (amended): whenever the mutated-sources flag is set and the
fail-on-mutated-sources policy is enabled, and the aggregated status is
success or warning (in particular when every linter reported success), the
process exits with the blocking code 1; when the status is error the
mutated-sources policy is not consulted. -/
theorem c9_updated_sources_forces_failure (status : String) (return_code : Int)
    (cli disable_errors : Bool) (has_updated_sources : Nat)
    (h1 : status = "success" ∨ status = "warning")
    (h2 : has_updated_sources > 0) :
    check_results status return_code cli disable_errors has_updated_sources true
        = ExitOutcome.exited 1 ∧
      blockingOutcome
        (check_results status return_code cli disable_errors has_updated_sources true)
        = true := by
  have hcu : check_updated_sources_failure has_updated_sources true
      = ExitOutcome.exited 1 := by
    simp [check_updated_sources_failure, h2]
  rcases h1 with h | h <;> subst h <;>
    simp [check_results, hcu, blockingOutcome]

/-- Witness for C9 at a concrete run: status success, two fixed files counted,
policy enabled, exits 1. -/
theorem c9_witness :
    (("success" = "success" ∨ ("success" : String) = "warning") ∧ 1 > 0) ∧
      check_results "success" 0 false false 1 true = ExitOutcome.exited 1 ∧
      blockingOutcome (check_results "success" 0 false false 1 true) = true :=
  ⟨⟨Or.inl rfl, by decide⟩,
    c9_updated_sources_forces_failure "success" 0 false false 1 (Or.inl rfl) (by decide)⟩

/-! ## Per-linter deactivation (Megalinter.collect_files, lines 616-620) -/

/-- Fields of a linter read by the deactivation step at the end of
`collect_files`: the file subset assigned by `linter.collect_files`, the
`lint_all_files` declaration and the `is_active` flag. -/
structure LinterFilesState where
  files : List String
  lint_all_files : Bool
  is_active : Bool
deriving DecidableEq

/-- Embedding of the loop body at lines 617-620:
`if len(linter.files) == 0 and linter.lint_all_files is False` the linter's
`is_active` flag is set to false; otherwise the linter is left untouched. -/
def deactivate_if_no_files (l : LinterFilesState) : LinterFilesState :=
  if l.files.length = 0 ∧ l.lint_all_files = false then { l with is_active := false }
  else l

/-- C7: a linter whose assigned file subset is empty and which does not declare
`lint_all_files` ends with `is_active = false` (no error is raised, the result
is a plain record update); a linter with a non-empty subset or with the
declaration keeps its whole state, activation flag included. -/
theorem c7_empty_subset_deactivates (l : LinterFilesState) :
    (l.files = [] → l.lint_all_files = false →
      (deactivate_if_no_files l).is_active = false) ∧
    (l.files ≠ [] ∨ l.lint_all_files = true → deactivate_if_no_files l = l) := by
  constructor
  · intro h1 h2
    simp [deactivate_if_no_files, h1, h2]
  · intro h
    rcases h with h | h
    · have : l.files.length ≠ 0 := by
        simpa [List.length_eq_zero] using h
      simp [deactivate_if_no_files, this]
    · simp [deactivate_if_no_files, h]

/-- Witness for C7: an active linter with no assigned files and no
zero-files declaration becomes inactive; an active linter with one file is
returned unchanged. -/
theorem c7_witness :
    (deactivate_if_no_files
        { files := [], lint_all_files := false, is_active := true }).is_active = false ∧
      deactivate_if_no_files
          { files := ["a.py"], lint_all_files := false, is_active := true }
        = { files := ["a.py"], lint_all_files := false, is_active := true } :=
  ⟨(c7_empty_subset_deactivates _).1 rfl rfl,
    (c7_empty_subset_deactivates _).2 (Or.inl (by decide))⟩

/-! ## Workspace resolution (Megalinter.get_workspace, lines 257-345) -/

/-- Outcome of `get_workspace`: a returned path, the `AssertionError` raised on
a relative `--input` directory missing under the container root, or the
`FileNotFoundError` whose message names the two examined signal values
`DEFAULT_WORKSPACE` and `GITHUB_WORKSPACE`. -/
inductive WorkspaceOutcome where
  | resolved (path : String)
  | assertFailedInputMissing (path : String)
  | notFound (default_workspace github_workspace : String)
deriving DecidableEq

/-- Embedding of `Megalinter.get_workspace` (lines 257-345). The filesystem is
abstracted as the predicate `isdir`; `dockerDir` stands for the constant
`DEFAULT_DOCKER_WORKSPACE_DIR` imported from `megalinter.constants`, and
`os.path.sep` is `"/"` (the program targets Linux containers). Each branch
mirrors one `elif` of the source in order. -/
def get_workspace (isdir : String → Bool) (dockerDir : String)
    (arg_input : Option String) (default_workspace github_workspace : String) :
    WorkspaceOutcome :=
  match arg_input with
  | some inp =>
      if isdir inp = true then .resolved inp
      else if isdir (dockerDir ++ "/" ++ inp) = true then
        .resolved (dockerDir ++ "/" ++ inp)
      else .assertFailedInputMissing (dockerDir ++ "/" ++ inp)
  | none =>
      if default_workspace = "" ∧ github_workspace ≠ "" ∧
          isdir (github_workspace ++ dockerDir) = true then
        .resolved (github_workspace ++ dockerDir)
      else if default_workspace ≠ "" ∧
          isdir (dockerDir ++ "/" ++ default_workspace) = true then
        .resolved (default_workspace ++ dockerDir ++ "/" ++ default_workspace)
      else if default_workspace ≠ "" ∧ isdir default_workspace = true then
        .resolved default_workspace
      else if isdir dockerDir = true then .resolved dockerDir
      else if default_workspace ≠ "" ∧ github_workspace ≠ "" ∧
          isdir (github_workspace ++ "/" ++ default_workspace) = true then
        .resolved (github_workspace ++ "/" ++ default_workspace)
      else if default_workspace = "" ∧ github_workspace ≠ "" ∧ github_workspace ≠ "/" ∧
          isdir github_workspace = true then
        .resolved github_workspace
      else .notFound default_workspace github_workspace

/-- Filesystem for the C1 failing input: the only directory is
`/tmp/lint/sub`. -/
def exWorkspaceFs (p : String) : Bool := p == "/tmp/lint/sub"

/-- C1 code bug, evaluated at the failing input: with `DEFAULT_WORKSPACE =
"sub"`, no `--input` and no `GITHUB_WORKSPACE`, the second context rule fires
because `/tmp/lint/sub` is a directory, but the function returns the different
path `"sub" + "/tmp/lint" + "/" + "sub" = "sub/tmp/lint/sub"`, which is not a
directory — refuting the invariant that the resolved workspace always exists
and is a directory. -/
theorem c1_resolved_path_not_a_directory :
    get_workspace exWorkspaceFs "/tmp/lint" none "sub" ""
        = WorkspaceOutcome.resolved "sub/tmp/lint/sub" ∧
      exWorkspaceFs "sub/tmp/lint/sub" = false ∧
      exWorkspaceFs "/tmp/lint/sub" = true := by
  decide

/-! ## Path ordering: Python string comparison (lexicographic by code point) -/

/-- Lexicographic comparison of character lists by code point, the order
Python's `sorted` uses on strings. -/
def charListLe : List Char → List Char → Bool
  | [], _ => true
  | _ :: _, [] => false
  | a :: as, b :: bs =>
      if a < b then true else if b < a then false else charListLe as bs

/-- Python string comparison `a <= b`. -/
def strLe (a b : String) : Bool := charListLe a.data b.data

/-- The path order as a relation, for use with the sorting function. -/
abbrev StrLe (a b : String) : Prop := strLe a b = true

instance : DecidableRel StrLe := fun _ _ => inferInstanceAs (Decidable (_ = true))

theorem charListLe_total (x : List Char) : ∀ y,
    charListLe x y = true ∨ charListLe y x = true := by
  induction x with
  | nil => intro y; left; rfl
  | cons a as ih =>
    intro y
    cases y with
    | nil => right; rfl
    | cons b bs =>
      rcases lt_trichotomy a b with h | h | h
      · left; simp [charListLe, h]
      · subst h
        rcases ih bs with h' | h'
        · left; simp [charListLe, h', lt_irrefl]
        · right; simp [charListLe, h', lt_irrefl]
      · right; simp [charListLe, h]

theorem charListLe_trans (x : List Char) : ∀ y z, charListLe x y = true →
    charListLe y z = true → charListLe x z = true := by
  induction x with
  | nil => intro y z _ _; rfl
  | cons a as ih =>
    intro y z hxy hyz
    cases y with
    | nil => simp [charListLe] at hxy
    | cons b bs =>
      cases z with
      | nil => simp [charListLe] at hyz
      | cons c cs =>
        rcases lt_trichotomy a b with hab | hab | hab
        · rcases lt_trichotomy b c with hbc | hbc | hbc
          · simp [charListLe, lt_trans hab hbc]
          · subst hbc; simp [charListLe, hab]
          · simp [charListLe, asymm hbc, hbc] at hyz
        · subst hab
          simp only [charListLe, lt_irrefl, if_false] at hxy
          rcases lt_trichotomy a c with hac | hac | hac
          · simp [charListLe, hac]
          · subst hac
            simp only [charListLe, lt_irrefl, if_false] at hyz ⊢
            exact ih bs cs hxy hyz
          · simp [charListLe, asymm hac, hac] at hyz
        · simp [charListLe, asymm hab, hab] at hxy

theorem charListLe_antisymm (x : List Char) : ∀ y, charListLe x y = true →
    charListLe y x = true → x = y := by
  induction x with
  | nil =>
    intro y _ hyx
    cases y with
    | nil => rfl
    | cons b bs => simp [charListLe] at hyx
  | cons a as ih =>
    intro y hxy hyx
    cases y with
    | nil => simp [charListLe] at hxy
    | cons b bs =>
      rcases lt_trichotomy a b with h | h | h
      · simp [charListLe, asymm h, h] at hyx
      · subst h
        simp only [charListLe, lt_irrefl, if_false] at hxy hyx
        rw [ih bs hxy hyx]
      · simp [charListLe, asymm h, h] at hxy

instance : IsTotal String StrLe := ⟨fun a b => charListLe_total a.data b.data⟩

instance : IsTrans String StrLe := ⟨fun a b c => charListLe_trans a.data b.data c.data⟩

instance : IsAntisymm String StrLe :=
  ⟨fun a b h1 h2 => by
    cases a with
    | mk da =>
      cases b with
      | mk db => exact congrArg String.mk (charListLe_antisymm da db h1 h2)⟩

/-- Embedding of Python `sorted(set(all_files))` (collect_files, line 543):
duplicates removed, then ascending lexicographic sort. -/
def sortedSet (xs : List String) : List String := xs.dedup.insertionSort StrLe

theorem sortedSet_sorted (xs : List String) : List.Sorted StrLe (sortedSet xs) :=
  List.sorted_insertionSort _ _

theorem sortedSet_nodup (xs : List String) : (sortedSet xs).Nodup :=
  ((List.perm_insertionSort _ _).nodup_iff).2 (List.nodup_dedup xs)

theorem mem_sortedSet (a : String) (xs : List String) : a ∈ sortedSet xs ↔ a ∈ xs := by
  rw [sortedSet, (List.perm_insertionSort _ _).mem_iff]
  exact List.mem_dedup

theorem sortedSet_perm_invariant (xs ys : List String) (h : xs.Perm ys) :
    sortedSet xs = sortedSet ys :=
  List.eq_of_perm_of_sorted
    (((List.perm_insertionSort _ _).trans h.dedup).trans
      (List.perm_insertionSort _ _).symm)
    (sortedSet_sorted xs) (sortedSet_sorted ys)

/-! ## File collection (Megalinter.collect_files, lines 512-543) -/

/-- Failure kinds of the version-control layer: `git.InvalidGitRepositoryError`
(the only one caught by the fallback at line 533) versus any other exception
(which propagates). -/
inductive GitErrorKind where
  | invalidGitRepository
  | otherError
deriving DecidableEq

/-- Embedding of the discovery stage of `Megalinter.collect_files`
(lines 512-543): explicit `MEGALINTER_FILES_TO_LINT` entries resolved under the
workspace and kept when they exist as files; otherwise incremental git-diff
mode (`validate_all_code_base` false) with the not-a-repository fallback to
`list_files_all`; otherwise the full scan. The outcome of the external
`list_files_git_diff` call is the `git_diff` argument and the `list_files_all`
result is the `full_scan` argument; the returned pair carries the file list
handed to filtering (after `sorted(set(...))`) together with the value of
`self.validate_all_code_base` after the stage. -/
def collect_files_discovery (files_to_lint : List String) (isfile : String → Bool)
    (workspace : String) (validate_all_code_base : Bool)
    (git_diff : Except GitErrorKind (List String)) (full_scan : List String) :
    Except GitErrorKind (List String × Bool) :=
  if files_to_lint.length > 0 then
    .ok (sortedSet ((files_to_lint.filter (fun f => isfile (workspace ++ "/" ++ f))).map
      (fun f => workspace ++ "/" ++ f)), validate_all_code_base)
  else if validate_all_code_base = false then
    match git_diff with
    | .ok diff_files => .ok (sortedSet diff_files, false)
    | .error .invalidGitRepository => .ok (sortedSet full_scan, true)
    | .error e => .error e
  else .ok (sortedSet full_scan, validate_all_code_base)

/-- C4: with no explicit file list and incremental mode selected
(`validate_all_code_base` false), a not-a-repository report from the git layer
makes discovery return exactly what full-scan mode returns, with the
validate-all flag flipped to true. -/
theorem c4_invalid_repo_falls_back_to_full_scan (isfile : String → Bool)
    (workspace : String) (full_scan : List String)
    (git_diff : Except GitErrorKind (List String)) :
    collect_files_discovery [] isfile workspace false
        (.error .invalidGitRepository) full_scan
      = Except.ok (sortedSet full_scan, true) ∧
    collect_files_discovery [] isfile workspace true git_diff full_scan
      = Except.ok (sortedSet full_scan, true) := by
  constructor <;> rfl

theorem discovery_ok_sortedSet (files_to_lint : List String) (isfile : String → Bool)
    (workspace : String) (validate_all : Bool)
    (git_diff : Except GitErrorKind (List String)) (full_scan : List String)
    (ys : List String) (b : Bool)
    (h : collect_files_discovery files_to_lint isfile workspace validate_all
        git_diff full_scan = Except.ok (ys, b)) :
    ∃ zs, ys = sortedSet zs := by
  unfold collect_files_discovery at h
  split_ifs at h
  · simp only [Except.ok.injEq, Prod.mk.injEq] at h
    exact ⟨_, h.1.symm⟩
  · cases git_diff with
    | ok diff_files =>
      simp only [Except.ok.injEq, Prod.mk.injEq] at h
      exact ⟨_, h.1.symm⟩
    | error e =>
      cases e with
      | invalidGitRepository =>
        simp only [Except.ok.injEq, Prod.mk.injEq] at h
        exact ⟨_, h.1.symm⟩
      | otherError => simp at h
  · simp only [Except.ok.injEq, Prod.mk.injEq] at h
    exact ⟨_, h.1.symm⟩

/-- C8: every file list that discovery hands to filtering is deduplicated and
sorted in ascending lexicographic order (each path at most once); and the
normalization `sorted(set(...))` is insensitive to the enumeration order of
the underlying scan, so two full scans of an unchanged tree (whose raw listings
are permutations of each other) yield identical path lists. -/
theorem c8_discovery_sorted_dedup_deterministic :
    (∀ (files_to_lint : List String) (isfile : String → Bool) (workspace : String)
        (validate_all : Bool) (git_diff : Except GitErrorKind (List String))
        (full_scan : List String) (ys : List String) (b : Bool),
      collect_files_discovery files_to_lint isfile workspace validate_all
          git_diff full_scan = Except.ok (ys, b) →
        ys.Nodup ∧ List.Sorted StrLe ys) ∧
    (∀ xs ys : List String, xs.Perm ys → sortedSet xs = sortedSet ys) := by
  constructor
  · intro files_to_lint isfile workspace validate_all git_diff full_scan ys b h
    obtain ⟨zs, rfl⟩ := discovery_ok_sortedSet files_to_lint isfile workspace
      validate_all git_diff full_scan _ b h
    exact ⟨sortedSet_nodup zs, sortedSet_sorted zs⟩
  · exact sortedSet_perm_invariant

/-- Witness for C8 at concrete inputs: a full scan listing `b, a, b` is handed
to filtering as `a, b` (deduplicated, sorted), and the permuted raw listing
`a, b, b` normalizes to the same list. -/
theorem c8_witness :
    collect_files_discovery [] (fun _ => true) "/w" true (Except.ok [])
        ["b", "a", "b"] = Except.ok (["a", "b"], true) ∧
      (["a", "b"] : List String).Nodup ∧ List.Sorted StrLe ["a", "b"] ∧
      (["b", "a", "b"] : List String).Perm ["a", "b", "b"] ∧
      sortedSet ["b", "a", "b"] = sortedSet ["a", "b", "b"] :=
  ⟨by rfl,
    (c8_discovery_sorted_dedup_deterministic.1 [] (fun _ => true) "/w" true
      (Except.ok []) ["b", "a", "b"] ["a", "b"] true (by rfl)).1,
    (c8_discovery_sorted_dedup_deterministic.1 [] (fun _ => true) "/w" true
      (Except.ok []) ["b", "a", "b"] ["a", "b"] true (by rfl)).2,
    by decide,
    c8_discovery_sorted_dedup_deterministic.2 ["b", "a", "b"] ["a", "b", "b"]
      (by decide)⟩

/-! ## Linter registry objects (process_linters_parallel) -/

/-- Fields of a linter object as used by `process_linters_parallel`: identity
(`name`), conflict class (`descriptor_id`), fixer flag (`apply_fixes`), and the
result state populated by the isolated execution. -/
structure LinterObj where
  name : String
  descriptor_id : String
  apply_fixes : Bool
  status : String
  return_code : Int
deriving DecidableEq

/-! ## Reconciliation after the pool drains (lines 247-254) -/

/-- One reconciliation step (lines 251-254): scan `self.linters`, replace the
first entry whose `name` matches the updated linter by the updated object
wholesale, and stop (`break`). -/
def replaceByName (linters : List LinterObj) (updated : LinterObj) : List LinterObj :=
  match linters with
  | [] => []
  | x :: rest =>
      if x.name = updated.name then updated :: rest
      else x :: replaceByName rest updated

/-- Embedding of the reconciliation phase (lines 247-254): for every pool
result (a returned linter group) and every updated linter in it, replace the
matching registry entry. -/
def reconcile_linters (linters : List LinterObj)
    (group_results : List (List LinterObj)) : List LinterObj :=
  group_results.foldl (fun acc group => group.foldl replaceByName acc) linters

theorem map_replace_id (updated : LinterObj) :
    ∀ rest : List LinterObj, (∀ y ∈ rest, y.name ≠ updated.name) →
      rest.map (fun x => if x.name = updated.name then updated else x) = rest := by
  intro rest
  induction rest with
  | nil => intro _; rfl
  | cons y ys ih =>
    intro h
    rw [List.map_cons, if_neg (h y (by simp)), ih (fun z hz => h z (by simp [hz]))]

theorem replaceByName_eq_map (updated : LinterObj) :
    ∀ linters : List LinterObj, (linters.map (fun x => x.name)).Nodup →
      replaceByName linters updated
        = linters.map (fun x => if x.name = updated.name then updated else x) := by
  intro linters
  induction linters with
  | nil => intro _; rfl
  | cons x rest ih =>
    intro h
    rw [List.map_cons, List.nodup_cons] at h
    by_cases hx : x.name = updated.name
    · rw [replaceByName, if_pos hx, List.map_cons, if_pos hx]
      have hrest : ∀ y ∈ rest, y.name ≠ updated.name := by
        intro y hy hcontra
        apply h.1
        rw [hx, ← hcontra]
        exact List.mem_map_of_mem _ hy
      rw [map_replace_id updated rest hrest]
    · rw [replaceByName, if_neg hx, List.map_cons, if_neg hx, ih h.2]

theorem find?_name_eq_of_mem (u : LinterObj) :
    ∀ l : List LinterObj, (l.map (fun x => x.name)).Nodup → u ∈ l →
      l.find? (fun v => v.name == u.name) = some u := by
  intro l
  induction l with
  | nil => intro _ h; simp at h
  | cons x rest ih =>
    intro hnd hmem
    rw [List.map_cons, List.nodup_cons] at hnd
    rcases List.mem_cons.1 hmem with rfl | hmem'
    · rw [List.find?_cons_of_pos _ (by simp)]
    · by_cases hx : x.name = u.name
      · exfalso
        apply hnd.1
        rw [hx]
        exact List.mem_map_of_mem _ hmem'
      · rw [List.find?_cons_of_neg _ (by simpa using hx)]
        exact ih hnd.2 hmem'

theorem reconcile_foldl_char :
    ∀ (updates : List LinterObj) (linters : List LinterObj),
      (linters.map (fun x => x.name)).Nodup →
      (updates.map (fun x => x.name)).Nodup →
      (∀ u ∈ updates, u.name ∈ linters.map (fun x => x.name)) →
      updates.foldl replaceByName linters
        = linters.map (fun x => ((updates.find? (fun v => v.name == x.name)).getD x)) := by
  intro updates
  induction updates with
  | nil =>
    intro linters _ _ _
    simp
  | cons u us ih =>
    intro linters h1 h2 h3
    rw [List.map_cons, List.nodup_cons] at h2
    rw [List.foldl_cons, replaceByName_eq_map u linters h1]
    have hnames : (linters.map (fun x => if x.name = u.name then u else x)).map
        (fun x => x.name) = linters.map (fun x => x.name) := by
      rw [List.map_map]
      apply List.map_congr_left
      intro a _
      by_cases ha : a.name = u.name
      · simp [ha]
      · simp [ha]
    have hmem' : ∀ v ∈ us, v.name ∈
        (linters.map (fun x => if x.name = u.name then u else x)).map
          (fun x => x.name) := by
      intro v hv
      rw [hnames]
      exact h3 v (by simp [hv])
    rw [ih _ (by rw [hnames]; exact h1) h2.2 hmem', List.map_map]
    apply List.map_congr_left
    intro x _
    simp only [Function.comp_apply]
    by_cases hxu : x.name = u.name
    · rw [if_pos hxu]
      have hnone : us.find? (fun v => v.name == u.name) = none := by
        rw [List.find?_eq_none]
        intro v hv
        simp only [beq_iff_eq]
        intro hcontra
        exact h2.1 (hcontra ▸ List.mem_map_of_mem _ hv)
      rw [hnone, List.find?_cons_of_pos _ (by simp [hxu])]
      rfl
    · rw [if_neg hxu]
      rw [List.find?_cons_of_neg _ (by simp; exact fun h => hxu h.symm)]

theorem reconcile_eq_foldl_flat :
    ∀ (group_results : List (List LinterObj)) (linters : List LinterObj),
      reconcile_linters linters group_results
        = (group_results.flatMap id).foldl replaceByName linters := by
  intro group_results
  induction group_results with
  | nil => intro linters; rfl
  | cons g gs ih =>
    intro linters
    rw [reconcile_linters, List.foldl_cons]
    rw [show (gs.foldl (fun acc group => group.foldl replaceByName acc)
        (g.foldl replaceByName linters)) = reconcile_linters
          (g.foldl replaceByName linters) gs from rfl]
    rw [ih, List.flatMap_cons, List.foldl_append]
    rfl

/-- C6: reconciliation replaces each registry entry wholesale by the returned
linter with the same name — the final registry is pointwise the returned
object when one exists, the untouched original entry otherwise — keeps the
registry length unchanged, and every returned linter object is present in the
final registry (its result state is carried over verbatim). Hypotheses: linter
names identify registry entries uniquely, each linter was dispatched to at most
one group, and returned linters correspond to registry entries. -/
theorem c6_reconciliation_wholesale (linters : List LinterObj)
    (group_results : List (List LinterObj))
    (h1 : (linters.map (fun x => x.name)).Nodup)
    (h2 : ((group_results.flatMap id).map (fun x => x.name)).Nodup)
    (h3 : ∀ u ∈ group_results.flatMap id, u.name ∈ linters.map (fun x => x.name)) :
    reconcile_linters linters group_results
        = linters.map (fun x =>
            (((group_results.flatMap id).find? (fun v => v.name == x.name)).getD x)) ∧
      (reconcile_linters linters group_results).length = linters.length ∧
      ∀ u ∈ group_results.flatMap id, u ∈ reconcile_linters linters group_results := by
  have hchar : reconcile_linters linters group_results
      = linters.map (fun x =>
          (((group_results.flatMap id).find? (fun v => v.name == x.name)).getD x)) := by
    rw [reconcile_eq_foldl_flat]
    exact reconcile_foldl_char (group_results.flatMap id) linters h1 h2 h3
  refine ⟨hchar, ?_, ?_⟩
  · rw [hchar, List.length_map]
  · intro u hu
    obtain ⟨x, hxmem, hxname⟩ := List.mem_map.1 (h3 u hu)
    have hval : (((group_results.flatMap id).find?
        (fun v => v.name == x.name)).getD x) = u := by
      rw [hxname, find?_name_eq_of_mem u _ h2 hu]
      rfl
    rw [hchar, ← hval]
    exact List.mem_map_of_mem _ hxmem

/-- Registry before reconciliation in the C6 witness scenario. -/
def exRegistry : List LinterObj :=
  [{ name := "a", descriptor_id := "PY", apply_fixes := false,
     status := "pending", return_code := 0 },
   { name := "b", descriptor_id := "MD", apply_fixes := false,
     status := "pending", return_code := 0 }]

/-- Groups returned by the pool in the C6 witness scenario: each linter comes
back in its own group carrying fresh result state. -/
def exGroupResults : List (List LinterObj) :=
  [[{ name := "a", descriptor_id := "PY", apply_fixes := false,
      status := "success", return_code := 0 }],
   [{ name := "b", descriptor_id := "MD", apply_fixes := false,
      status := "error", return_code := 2 }]]

/-- Witness for C6: on the two-linter registry, with each linter returned in
its own group with fresh result state, the hypotheses hold and the reconciled
registry is exactly the two returned objects — same length, both present. -/
theorem c6_witness :
    ((exRegistry.map (fun x => x.name)).Nodup ∧
      ((exGroupResults.flatMap id).map (fun x => x.name)).Nodup ∧
      (∀ u ∈ exGroupResults.flatMap id,
        u.name ∈ exRegistry.map (fun x => x.name))) ∧
    reconcile_linters exRegistry exGroupResults
        = [{ name := "a", descriptor_id := "PY", apply_fixes := false,
             status := "success", return_code := 0 },
           { name := "b", descriptor_id := "MD", apply_fixes := false,
             status := "error", return_code := 2 }] ∧
      (reconcile_linters exRegistry exGroupResults).length = exRegistry.length :=
  ⟨⟨by decide, by decide, by decide⟩,
    by
      have h := c6_reconciliation_wholesale exRegistry exGroupResults
        (by decide) (by decide) (by decide)
      exact ⟨by rw [h.1]; decide, h.2.1⟩⟩

/-! ## Concurrent grouping (process_linters_parallel, lines 215-231) -/

/-- One step of the grouping loop (lines 220-225): the Python update
`linters_by_descriptor[linter.descriptor_id] = linters_by_descriptor.get(linter.descriptor_id, []) + [linter]`
on an insertion-ordered dictionary, modelled as an association list — an
existing key keeps its position and its list is extended at the end, a new key
is appended at the end. -/
def addLinterByDescriptor (acc : List (String × List LinterObj)) (l : LinterObj) :
    List (String × List LinterObj) :=
  match acc with
  | [] => [(l.descriptor_id, [l])]
  | (d, ls) :: rest =>
      if d = l.descriptor_id then (d, ls ++ [l]) :: rest
      else (d, ls) :: addLinterByDescriptor rest l

/-- The grouping policy of `process_linters_parallel` (lines 216-231): when
fixes are applied, group active linters by `descriptor_id` (dictionary values
in key insertion order); otherwise one singleton group per active linter. -/
def linter_groups (linters_do_fixes : Bool) (active_linters : List LinterObj) :
    List (List LinterObj) :=
  if linters_do_fixes = true then
    (active_linters.foldl addLinterByDescriptor []).map Prod.snd
  else
    active_linters.map (fun l => [l])

/-- The `linters_do_fixes` flag computed in `Megalinter.run` (lines 146-151):
true when some active linter has `apply_fixes`. -/
def lintersDoFixes (active_linters : List LinterObj) : Bool :=
  active_linters.any (fun l => l.apply_fixes)

/-- Distinct descriptor ids of the list, in order of first occurrence: the
key order of the insertion-ordered dictionary. -/
def descriptorKeys (linters : List LinterObj) : List String :=
  linters.foldl
    (fun acc l => if l.descriptor_id ∈ acc then acc else acc ++ [l.descriptor_id]) []

theorem descriptorKeys_foldl_mem (d : String) :
    ∀ (linters : List LinterObj) (acc : List String),
      (d ∈ linters.foldl (fun acc l => if l.descriptor_id ∈ acc then acc
          else acc ++ [l.descriptor_id]) acc) ↔
        d ∈ acc ∨ d ∈ linters.map (fun l => l.descriptor_id) := by
  intro linters
  induction linters with
  | nil => intro acc; simp
  | cons x rest ih =>
    intro acc
    rw [List.foldl_cons]
    by_cases hx : x.descriptor_id ∈ acc
    · rw [if_pos hx, ih]
      simp only [List.map_cons, List.mem_cons]
      constructor
      · rintro (h | h)
        · exact Or.inl h
        · exact Or.inr (Or.inr h)
      · rintro (h | h | h)
        · exact Or.inl h
        · exact Or.inl (h ▸ hx)
        · exact Or.inr h
    · rw [if_neg hx, ih]
      simp only [List.mem_append, List.mem_singleton, List.map_cons, List.mem_cons]
      tauto

theorem mem_descriptorKeys (d : String) (linters : List LinterObj) :
    d ∈ descriptorKeys linters ↔ d ∈ linters.map (fun l => l.descriptor_id) := by
  rw [descriptorKeys, descriptorKeys_foldl_mem]
  simp

theorem descriptorKeys_foldl_nodup :
    ∀ (linters : List LinterObj) (acc : List String), acc.Nodup →
      (linters.foldl (fun acc l => if l.descriptor_id ∈ acc then acc
          else acc ++ [l.descriptor_id]) acc).Nodup := by
  intro linters
  induction linters with
  | nil => intro acc h; exact h
  | cons x rest ih =>
    intro acc h
    rw [List.foldl_cons]
    by_cases hx : x.descriptor_id ∈ acc
    · rw [if_pos hx]
      exact ih acc h
    · rw [if_neg hx]
      refine ih _ ?_
      rw [List.nodup_append]
      exact ⟨h, List.nodup_singleton _, by simp [List.disjoint_singleton, hx]⟩

theorem descriptorKeys_nodup (linters : List LinterObj) :
    (descriptorKeys linters).Nodup :=
  descriptorKeys_foldl_nodup linters [] List.nodup_nil

theorem descriptorKeys_append_single (zs : List LinterObj) (x : LinterObj) :
    descriptorKeys (zs ++ [x]) =
      if x.descriptor_id ∈ descriptorKeys zs then descriptorKeys zs
      else descriptorKeys zs ++ [x.descriptor_id] := by
  unfold descriptorKeys
  rw [List.foldl_append]
  rfl

/-- The dictionary built by the grouping loop over a prefix, described
explicitly: one entry per distinct descriptor id in first-occurrence order,
carrying all linters of that id in list order. -/
def descriptorAssoc (linters : List LinterObj) : List (String × List LinterObj) :=
  (descriptorKeys linters).map
    (fun d => (d, linters.filter (fun x => x.descriptor_id == d)))

theorem addLinter_mapped_mem (x : LinterObj) (F : String → List LinterObj) :
    ∀ ks : List String, ks.Nodup → x.descriptor_id ∈ ks →
      addLinterByDescriptor (ks.map (fun d => (d, F d))) x
        = ks.map (fun d =>
            (d, F d ++ if x.descriptor_id = d then [x] else [])) := by
  intro ks
  induction ks with
  | nil =>
    intro _ h
    simp at h
  | cons k ks' ih =>
    intro hnd hmem
    rw [List.nodup_cons] at hnd
    rw [List.map_cons, List.map_cons]
    by_cases hk : k = x.descriptor_id
    · rw [addLinterByDescriptor, if_pos hk, if_pos hk.symm]
      congr 1
      apply Eq.symm
      apply List.map_congr_left
      intro d hd
      have hne : x.descriptor_id ≠ d := by
        intro hcontra
        exact hnd.1 (by rw [hk, hcontra]; exact hd)
      rw [if_neg hne, List.append_nil]
    · rw [addLinterByDescriptor, if_neg hk,
        if_neg (fun hcontra => hk hcontra.symm), List.append_nil]
      congr 1
      have hmem' : x.descriptor_id ∈ ks' := by
        rcases List.mem_cons.1 hmem with h | h
        · exact absurd h.symm hk
        · exact h
      exact ih hnd.2 hmem'

theorem addLinter_mapped_not_mem (x : LinterObj) (F : String → List LinterObj) :
    ∀ ks : List String, x.descriptor_id ∉ ks →
      addLinterByDescriptor (ks.map (fun d => (d, F d))) x
        = ks.map (fun d => (d, F d)) ++ [(x.descriptor_id, [x])] := by
  intro ks
  induction ks with
  | nil => intro _; rfl
  | cons k ks' ih =>
    intro hmem
    have hk : k ≠ x.descriptor_id := by
      intro h
      exact hmem (by rw [h]; exact List.mem_cons_self _ _)
    rw [List.map_cons, addLinterByDescriptor, if_neg hk,
      ih (fun h => hmem (List.mem_cons_of_mem _ h))]
    rfl

theorem addLinter_descriptorAssoc (zs : List LinterObj) (x : LinterObj) :
    addLinterByDescriptor (descriptorAssoc zs) x = descriptorAssoc (zs ++ [x]) := by
  unfold descriptorAssoc
  by_cases hmem : x.descriptor_id ∈ descriptorKeys zs
  · rw [descriptorKeys_append_single, if_pos hmem,
      addLinter_mapped_mem x _ (descriptorKeys zs) (descriptorKeys_nodup zs) hmem]
    apply List.map_congr_left
    intro d _
    rw [List.filter_append]
    congr 1
    by_cases hxd : x.descriptor_id = d
    · simp [List.filter, hxd]
    · simp only [List.filter, show (x.descriptor_id == d) = false from
        beq_eq_false_iff_ne.mpr hxd]
      rw [if_neg hxd]
  · rw [descriptorKeys_append_single, if_neg hmem,
      addLinter_mapped_not_mem x _ (descriptorKeys zs) hmem, List.map_append]
    congr 1
    · apply List.map_congr_left
      intro d hd
      have hne : x.descriptor_id ≠ d := by
        intro hcontra
        exact hmem (hcontra ▸ hd)
      rw [List.filter_append]
      have : List.filter (fun y => y.descriptor_id == d) [x] = [] := by
        simp [List.filter, show (x.descriptor_id == d) = false from
          beq_eq_false_iff_ne.mpr hne]
      rw [this, List.append_nil]
    · have hzs : zs.filter (fun y => y.descriptor_id == x.descriptor_id) = [] := by
        rw [List.filter_eq_nil_iff]
        intro a ha
        simp only [beq_iff_eq]
        intro hcontra
        exact hmem ((mem_descriptorKeys _ _).2 (hcontra ▸ List.mem_map_of_mem _ ha))
      simp only [List.map_cons, List.map_nil, List.filter_append, hzs,
        List.nil_append]
      simp [List.filter]

theorem foldl_addLinter_assoc :
    ∀ (rest done : List LinterObj),
      rest.foldl addLinterByDescriptor (descriptorAssoc done)
        = descriptorAssoc (done ++ rest) := by
  intro rest
  induction rest with
  | nil =>
    intro done
    rw [List.append_nil]
    rfl
  | cons x rest' ih =>
    intro done
    rw [List.foldl_cons, addLinter_descriptorAssoc, ih]
    congr 1
    simp [List.append_assoc]

/-- Fixer linter `A` of conflict class `"1"` from the grouping example. -/
def exFixerA : LinterObj :=
  { name := "A", descriptor_id := "1", apply_fixes := true,
    status := "success", return_code := 0 }

/-- Analysis-only linter `B` of conflict class `"1"` from the grouping
example. -/
def exCheckerB : LinterObj :=
  { name := "B", descriptor_id := "1", apply_fixes := false,
    status := "success", return_code := 0 }

/-- Fixer linter `C` of conflict class `"2"` from the grouping example. -/
def exFixerC : LinterObj :=
  { name := "C", descriptor_id := "2", apply_fixes := true,
    status := "success", return_code := 0 }

/-- C5: when fixes are applied, the concurrent grouping produces exactly one
group per distinct descriptor id (in first-occurrence order, with no id
repeated), each containing all active linters of that id in list order — so
two linters sharing a conflict class are never split across groups; with no
fixer active it produces one singleton group per linter; on the example with
`A`, `B` in class 1 (only `A` fixing) and `C` in class 2, the flag is true and
the groups are exactly `[A, B]` and `[C]`. -/
theorem c5_grouping_by_descriptor (active_linters : List LinterObj) :
    linter_groups true active_linters
        = (descriptorKeys active_linters).map
            (fun d => active_linters.filter (fun x => x.descriptor_id == d)) ∧
      (descriptorKeys active_linters).Nodup ∧
      linter_groups false active_linters = active_linters.map (fun l => [l]) ∧
      lintersDoFixes [exFixerA, exCheckerB, exFixerC] = true ∧
      linter_groups (lintersDoFixes [exFixerA, exCheckerB, exFixerC])
          [exFixerA, exCheckerB, exFixerC]
        = [[exFixerA, exCheckerB], [exFixerC]] := by
  refine ⟨?_, descriptorKeys_nodup active_linters, ?_, by decide, by decide⟩
  · rw [linter_groups, if_pos rfl]
    have h : active_linters.foldl addLinterByDescriptor []
        = descriptorAssoc active_linters := by
      have h0 : descriptorAssoc [] = ([] : List (String × List LinterObj)) := rfl
      have := foldl_addLinter_assoc active_linters []
      rw [h0] at this
      simpa using this
    rw [h, descriptorAssoc, List.map_map]
    rfl
  · rw [linter_groups]
    simp

/-- Witness for C3 at a concrete list: one non-success linter with return code
0 yields overall status warning and exit code 0. -/
theorem c3_witness :
    (aggregate [{ status := "error", return_code := 0, number_fixed := 0 }]).status
        = "warning" ∧
      (aggregate [{ status := "error", return_code := 0, number_fixed := 0 }]).return_code
        = lastPositiveCode [{ status := "error", return_code := 0, number_fixed := 0 }] :=
  ⟨(c3_status_and_exit_code
      [{ status := "error", return_code := 0, number_fixed := 0 }]).2.1.mpr
    ⟨by decide, by decide⟩,
   (c3_status_and_exit_code
      [{ status := "error", return_code := 0, number_fixed := 0 }]).2.2.2⟩
